import Mathlib

/-!
# RhythmCrew server — shallow embedding and verification

This file embeds the session-state engine of `src/server.py` (a websocket
song-request queue server backed by SQLite) as executable Lean definitions
and proves/refutes the specification claims about it.

Modelling conventions:
* SQLite tables become Lean lists of records; `INTEGER` columns are `Int`
  (vote counters, year, length) or `Nat` (row ids); `DATETIME` values
  (`CURRENT_TIMESTAMP` strings, which compare chronologically) are `Nat`
  timestamps supplied as a `now` parameter.
* Python dicts keyed by the websocket object become association lists keyed
  by a connection-id string; dict insertion order is preserved (Python 3.7+
  dicts), which matters where the code iterates over a dict.
* `handle_message` becomes a total function returning the next server state,
  a flag recording whether `broadcast_state()` was invoked, and the list of
  messages sent only to the caller.  Exceptions that the Python code catches
  and merely logs (`json.JSONDecodeError`, `KeyError`, `sqlite3.Error`,
  `Exception` in `handle_message`) become the "no effect" result.
-/

namespace RhythmCrew

/-- A row of the `songs` table (`init_db`, src/server.py lines 48-57). -/
structure Song where
  id : Nat
  name : String
  artist : String
  album : String
  genre : String
  charter : String
  year : Int
  songlength : Int
deriving DecidableEq

/-- A row of the `queue` table (`init_db`, lines 59-67): upvotes/downvotes
are SQL INTEGERs defaulting to 0, `requested_at` defaults to the insertion
time. -/
structure QueueEntry where
  id : Nat
  song_id : Nat
  user_id : String
  upvotes : Int
  downvotes : Int
  requested_at : Nat
deriving DecidableEq

/-- A row of the `users` table (lines 69-73). -/
structure UserRecord where
  id : String
  name : String
  avatar : String
deriving DecidableEq

/-- A row of the `history` table (lines 75-80). -/
structure HistoryRecord where
  song_id : Nat
  played_at : Nat
deriving DecidableEq

/-- The contents of `rhythmcrew.db`. -/
structure DBState where
  songs : List Song
  queue : List QueueEntry
  users : List UserRecord
  history : List HistoryRecord
deriving DecidableEq

/-- The per-connection record stored in the `clients` dict on `join`
(line 406). -/
structure ClientInfo where
  user_id : String
  is_admin : Bool
  user_name : String
  user_avatar : String
deriving DecidableEq

/-! ## Association-list helpers (Python dict semantics) -/

/-- Python dict assignment `d[k] = v`: replace in place if the key exists,
otherwise append (insertion order preserved). -/
def upsertAssoc (k : String) (v : α) : List (String × α) → List (String × α)
  | [] => [(k, v)]
  | (k', v') :: rest =>
      if k' = k then (k, v) :: rest else (k', v') :: upsertAssoc k v rest

/-- `d.get(k)` / `d[k]` on an insertion-ordered dict. -/
def lookupAssoc (k : String) : List (String × α) → Option α
  | [] => none
  | (k', v) :: rest => if k' = k then some v else lookupAssoc k rest

/-- `INSERT OR REPLACE INTO users` keyed by the primary key `id`
(line 412). -/
def upsertUser (u : UserRecord) : List UserRecord → List UserRecord
  | [] => [u]
  | u' :: rest => if u'.id = u.id then u :: rest else u' :: upsertUser u rest

/-! ## Queue rendering (`send_state` lines 523-550, `broadcast_state`
lines 552-577; both run the identical SQL). -/

/-- One row of the rendered queue: the SQL join
`queue JOIN songs ON q.song_id = s.id LEFT JOIN users ON q.user_id = u.id`
(lines 532-537). -/
structure QueueView where
  id : Nat
  name : String
  artist : String
  upvotes : Int
  downvotes : Int
  requested_at : Nat
  user_id : String
  user_name : Option String
  user_avatar : Option String
deriving DecidableEq

/-- One row of the rendered history (lines 540-541). -/
structure HistoryView where
  name : String
  artist : String
deriving DecidableEq

/-- The `data` object of an outbound `{action:"state"}` envelope
(lines 545-549). -/
structure StatePayload where
  songs : List Song
  queue : List QueueView
  history : List HistoryView
deriving DecidableEq

/-- `ORDER BY q.upvotes DESC, q.requested_at ASC` as a boolean comparator:
`a` sorts no later than `b`. -/
def queueLE (a b : QueueView) : Bool :=
  decide (b.upvotes < a.upvotes) ||
    (decide (a.upvotes = b.upvotes) && decide (a.requested_at ≤ b.requested_at))

/-- `ORDER BY h.played_at DESC`: newest first. -/
def historyLE (a b : HistoryRecord) : Bool :=
  decide (b.played_at ≤ a.played_at)

/-- Sorted insertion, the building block of the model of a SQL `ORDER BY`. -/
def insertLE (le : α → α → Bool) (a : α) : List α → List α
  | [] => [a]
  | b :: l => if le a b then a :: b :: l else b :: insertLE le a l

/-- Insertion sort; models a SQL `ORDER BY` (any sorted-by-the-comparator
order satisfies the ordering claims, so the choice of sorting algorithm is
immaterial). -/
def sortLE (le : α → α → Bool) : List α → List α
  | [] => []
  | a :: l => insertLE le a (sortLE le l)

/-- The queue query of `send_state`/`broadcast_state`: join each queue row
with its song (inner `JOIN songs`, so rows without a catalog song drop out;
`id` is a primary key, so `find?` models the join) and its requester
(`LEFT JOIN users`), ordered by upvotes descending then requested_at
ascending. -/
def renderQueue (db : DBState) : List QueueView :=
  sortLE queueLE <| db.queue.filterMap (fun e =>
    match db.songs.find? (fun s => s.id == e.song_id) with
    | none => none
    | some s =>
        let u := db.users.find? (fun r => r.id == e.user_id)
        some { id := e.id, name := s.name, artist := s.artist,
               upvotes := e.upvotes, downvotes := e.downvotes,
               requested_at := e.requested_at, user_id := e.user_id,
               user_name := u.map UserRecord.name,
               user_avatar := u.map UserRecord.avatar })

/-- The history query (`... ORDER BY h.played_at DESC LIMIT 15`). -/
def renderHistory (db : DBState) : List HistoryView :=
  ((sortLE historyLE db.history).filterMap (fun h =>
    match db.songs.find? (fun s => s.id == h.song_id) with
    | none => none
    | some s => some ({ name := s.name, artist := s.artist } : HistoryView))).take 15

/-- The full `state` payload built identically by `send_state`
(lines 523-550) and `broadcast_state` (lines 552-577). -/
def serializeState (db : DBState) : StatePayload :=
  { songs := db.songs, queue := renderQueue db, history := renderHistory db }

/-! ## Artist-name normalisation (`clean_artist_name`, lines 155-190)

The regexes of the Python code are unrolled into explicit scanners.  `\s`
is modelled as ASCII whitespace and `.lower()`/`.upper()` as the ASCII
case maps (the names involved in the claims are ASCII). -/

/-- Python `\s` (ASCII range). -/
def isWS (c : Char) : Bool :=
  c == ' ' || c == '\t' || c == '\n' || c == '\r' || c == '\x0b' || c == '\x0c'

/-- Drop a maximal (possibly empty) whitespace run: the greedy `\s*`. -/
def chompWSmany : List Char → List Char
  | [] => []
  | c :: cs => if isWS c then chompWSmany cs else c :: cs

/-- Match the greedy `\s+`: at least one whitespace character, returning
the remainder. -/
def chompWS1 : List Char → Option (List Char)
  | [] => none
  | c :: cs => if isWS c then some (chompWSmany cs) else none

/-- Match a literal word case-insensitively (`re.IGNORECASE`); the pattern
is given in lowercase. -/
def matchLitCI : List Char → List Char → Option (List Char)
  | [], cs => some cs
  | _ :: _, [] => none
  | p :: ps, c :: cs => if c.toLower == p then matchLitCI ps cs else none

/-- The pattern `\s+w\s+` for a connector word `w`. -/
def patWordWS (w : String) (cs : List Char) : Option (List Char) :=
  (chompWS1 cs).bind fun r1 => (matchLitCI w.toList r1).bind chompWS1

/-- The pattern `\s+w\.?\s+` (e.g. `feat`, `ft`, `vs`): the optional dot is
taken when present, and when a dot is present but not followed by
whitespace the regex fails either way. -/
def patWordOptDotWS (w : String) (cs : List Char) : Option (List Char) :=
  (chompWS1 cs).bind fun r1 => (matchLitCI w.toList r1).bind fun r2 =>
    match r2 with
    | '.' :: r3 => chompWS1 r3
    | _ => chompWS1 r2

/-- The pattern `\s+f\.` (no trailing whitespace required). -/
def patFDot (cs : List Char) : Option (List Char) :=
  (chompWS1 cs).bind (matchLitCI "f.".toList)

/-- The connector patterns, in the order the source lists them
(lines 168-171). -/
def connectorPats : List (List Char → Option (List Char)) :=
  [patWordWS "featuring", patWordOptDotWS "feat", patFDot,
   patWordOptDotWS "ft", patWordWS "with", patWordWS "&",
   patWordWS "x", patWordOptDotWS "vs", patWordWS "versus"]

/-- `re.split(pattern, s)[0]`: the prefix before the leftmost match of the
pattern (the whole string when the pattern matches nowhere). -/
def splitFirstAux (pat : List Char → Option (List Char)) : List Char → List Char
  | [] => []
  | c :: cs => if (pat (c :: cs)).isSome then [] else c :: splitFirstAux pat cs

/-- Scan to the first `)` and return the remainder after it
(the `[^)]*\)` tail of the parenthesis regex). -/
def matchCloseParen : List Char → Option (List Char)
  | [] => none
  | ')' :: r => some r
  | _ :: r => matchCloseParen r

/-- Does `\s*\([^)]*\)` match at this position?  If so, return the
remainder after the match. -/
def matchParenAt (cs : List Char) : Option (List Char) :=
  match chompWSmany cs with
  | '(' :: r => matchCloseParen r
  | _ => none

/-- Scan to the first `]` (the `[^\]]*\]` tail of the bracket regex). -/
def matchCloseBracket : List Char → Option (List Char)
  | [] => none
  | ']' :: r => some r
  | _ :: r => matchCloseBracket r

/-- Does `\s*\[[^\]]*\]` match at this position? -/
def matchBracketAt (cs : List Char) : Option (List Char) :=
  match chompWSmany cs with
  | '[' :: r => matchCloseBracket r
  | _ => none

/-- `re.sub(pat, '', s)`: delete every non-overlapping leftmost match.
Each successful match consumes at least two characters, so `cs.length`
steps of fuel always suffice. -/
def subAllFuel (matchAt : List Char → Option (List Char)) :
    Nat → List Char → List Char
  | 0, cs => cs
  | _, [] => []
  | fuel + 1, c :: cs =>
      match matchAt (c :: cs) with
      | some r => subAllFuel matchAt fuel r
      | none => c :: subAllFuel matchAt fuel cs

/-- `re.sub(r'^The\s+', '', s, flags=re.IGNORECASE)`: drop a leading
"The" plus the whitespace run after it. -/
def stripThe (cs : List Char) : List Char :=
  match cs with
  | t :: h :: e :: c :: rest =>
      if t.toLower == 't' && h.toLower == 'h' && e.toLower == 'e' && isWS c then
        chompWSmany rest
      else cs
  | _ => cs

/-- Python `str.strip()` (ASCII whitespace). -/
def stripWS (cs : List Char) : List Char :=
  ((cs.dropWhile isWS).reverse.dropWhile isWS).reverse

/-- Python `str.strip()` on a `String`. -/
def stripStr (s : String) : String := String.mk (stripWS s.toList)

/-- Python `str.lower()` on a `String` (ASCII). -/
def lowerStr (s : String) : String := String.mk (s.toList.map Char.toLower)

/-- `clean_artist_name` (lines 155-190): split away featuring/connector
suffixes (keeping the primary artist), delete parenthesised and bracketed
qualifiers, drop a leading "The ", then trim and lowercase. -/
def clean_artist_name (artist : String) : String :=
  if artist = "" then ""
  else
    let cs := connectorPats.foldl (fun acc pat => splitFirstAux pat acc) artist.toList
    let cs := subAllFuel matchParenAt cs.length cs
    let cs := subAllFuel matchBracketAt cs.length cs
    let cs := stripThe cs
    String.mk ((stripWS cs).map Char.toLower)

/-! ## Fuzzy matching (`fuzzy_match_names`, lines 192-225)

Scores are modelled in `ℚ`; the Python floats `0.6`, `0.85`, `0.75` become
the exact rationals (no comparison in the code is close enough to the
binary rounding error for the difference to matter, and the claims never
exercise the word-pair branch whose value involves a division).  Python
`set` iteration order is abstracted to first-occurrence order; it only
influences the word-pair branch, whose score is capped at `0.6` and so can
never pass the strict `> 0.6` threshold used by the caller. -/

/-- Is `p` a (contiguous) prefix of `l`? -/
def startsWithChars : List Char → List Char → Bool
  | [], _ => true
  | _ :: _, [] => false
  | a :: p, b :: l => a == b && startsWithChars p l

/-- Python `p in l` on strings: `p` occurs contiguously in `l`. -/
def hasSubstring (p : List Char) : List Char → Bool
  | [] => startsWithChars p []
  | c :: l => startsWithChars p (c :: l) || hasSubstring p l

/-- `s.split()`-style word splitting on whitespace, dropping empties. -/
def splitWordsAux : List Char → List Char → List (List Char)
  | acc, [] => if acc.isEmpty then [] else [acc.reverse]
  | acc, c :: cs =>
      if isWS c then
        if acc.isEmpty then splitWordsAux [] cs
        else acc.reverse :: splitWordsAux [] cs
      else splitWordsAux (c :: acc) cs

/-- `s.split()` on whitespace. -/
def splitWords (cs : List Char) : List (List Char) := splitWordsAux [] cs

/-- `set(...)` modelled as the first-occurrence-ordered list of distinct
words. -/
def dedupFirst (l : List (List Char)) : List (List Char) :=
  l.foldl (fun acc w => if acc.contains w then acc else acc ++ [w]) []

/-- The first word pair (in order) related by substring containment:
the value returned by the nested word loop (lines 220-223). -/
def firstWordPair (qw tw : List (List Char)) : Option (List Char × List Char) :=
  qw.findSome? fun wq => tw.findSome? fun wt =>
    if hasSubstring wq wt || hasSubstring wt wq then some (wq, wt) else none

/-- `fuzzy_match_names` (lines 192-225). -/
def fuzzy_match_names (query_name target_name : String) : ℚ :=
  if query_name = "" ∨ target_name = "" then 0
  else
    let q := stripWS (query_name.toList.map Char.toLower)
    let t := stripWS (target_name.toList.map Char.toLower)
    if q = t then 1
    else if hasSubstring q t || hasSubstring t q then 85/100
    else
      let qw := dedupFirst (splitWords q)
      let tw := dedupFirst (splitWords t)
      if qw.all (fun w => tw.contains w) then 75/100
      else
        match firstWordPair qw tw with
        | some (wq, wt) =>
            min (6/10)
              (if wt.length > 0 then (6/10) * (wq.length : ℚ) / (wt.length : ℚ)
               else 4/10)
        | none => 0

/-! ## Artist-image caches (`load_artist_database` lines 94-135,
`lookup_artist_images` lines 255-342) -/

/-- An element of an `owner_lookup_cache` bucket (lines 113-116). -/
structure ArtistEntry where
  original_artist : String
  image : String
deriving DecidableEq

/-- The two module-level caches (lines 91-92), as insertion-ordered
dicts. -/
structure ArtistCaches where
  owner_lookup_cache : List (String × List ArtistEntry)
  artist_image_cache : List (String × String)
deriving DecidableEq

/-- Append an entry to a bucket of `owner_lookup_cache`, creating the
bucket when absent (lines 111-116). -/
def ownerAppend (k : String) (e : ArtistEntry) :
    List (String × List ArtistEntry) → List (String × List ArtistEntry)
  | [] => [(k, [e])]
  | (k', es) :: rest =>
      if k' = k then (k, es ++ [e]) :: rest else (k', es) :: ownerAppend k e rest

/-- `load_artist_database` over the CSV rows, each row being
`(artist_name, artist_img)`: rows with an empty name or image, or with an
image not starting with `http`, are skipped; accepted rows populate both
caches (lines 102-120). -/
def load_artist_database (rows : List (String × String)) : ArtistCaches :=
  rows.foldl
    (fun caches row =>
      let csv_artist := stripStr row.1
      let csv_image := stripStr row.2
      if csv_artist ≠ "" ∧ csv_image ≠ "" ∧
          startsWithChars "http".toList csv_image.toList then
        let cleaned := clean_artist_name csv_artist
        { owner_lookup_cache :=
            ownerAppend cleaned ⟨csv_artist, csv_image⟩ caches.owner_lookup_cache,
          artist_image_cache :=
            upsertAssoc cleaned csv_image
              (upsertAssoc csv_artist csv_image caches.artist_image_cache) }
      else caches)
    ⟨[], []⟩

/-- The fuzzy-matching pass of `lookup_artist_images` (lines 294-312):
scan the lookup cache keeping the best score that is strictly above `0.6`
and strictly above the previous best, then accept it when `≥ 0.6`.
A bucket is never empty (see `load_artist_database`); an empty bucket is
skipped here, where the Python `entries[0]` would raise. -/
def fuzzyBest (clean_name : String)
    (owner : List (String × List ArtistEntry)) : Option String :=
  let best := owner.foldl
    (fun (acc : Option (ArtistEntry × ℚ)) p =>
      let score := fuzzy_match_names clean_name p.1
      let best_score : ℚ := match acc with | none => 0 | some (_, s) => s
      if score > 6/10 ∧ score > best_score then
        match p.2 with
        | e :: _ => some (e, score)
        | [] => acc
      else acc)
    none
  match best with
  | some (e, s) => if s ≥ 6/10 then some e.image else none
  | none => none

/-- One iteration of the `for artist in artists` loop of
`lookup_artist_images` (lines 268-334), returning the updated results dict
and caches. -/
def lookupStep (caches : ArtistCaches) (results : List (String × String))
    (artist : String) : List (String × String) × ArtistCaches :=
  match lookupAssoc artist caches.artist_image_cache with
  | some img => (upsertAssoc artist img results, caches)
  | none =>
    let clean_name := clean_artist_name artist
    match lookupAssoc clean_name caches.artist_image_cache with
    | some img =>
        (upsertAssoc artist img results,
         { caches with artist_image_cache :=
             upsertAssoc artist img caches.artist_image_cache })
    | none =>
      match lookupAssoc clean_name caches.owner_lookup_cache with
      | some (e :: _) =>
          (upsertAssoc artist e.image results,
           { caches with artist_image_cache :=
               upsertAssoc artist e.image caches.artist_image_cache })
      | _ =>
        match fuzzyBest clean_name caches.owner_lookup_cache with
        | some img =>
            (upsertAssoc artist img results,
             { caches with artist_image_cache :=
                 upsertAssoc artist img caches.artist_image_cache })
        | none =>
          match caches.artist_image_cache.find?
              (fun p => lowerStr p.1 == lowerStr artist) with
          | some p =>
              (upsertAssoc artist p.2 results,
               { caches with artist_image_cache :=
                   upsertAssoc artist p.2 caches.artist_image_cache })
          | none =>
            let fallback := match artist.toList with
              | [] => "?"
              | c :: _ => String.mk [c.toUpper]
            (upsertAssoc artist fallback results, caches)

/-- `lookup_artist_images` (lines 255-342): fold the per-artist lookup
over the query list, threading the memoising cache updates; returns the
results dict and the updated caches. -/
def lookup_artist_images (caches : ArtistCaches) (artists : List String) :
    List (String × String) × ArtistCaches :=
  artists.foldl (fun st a => lookupStep st.2 st.1 a) ([], caches)

/-! ## The session engine (`handle_message`, lines 391-521) -/

/-- A record of the `upload_songs` payload: the code reads exactly the
keys `Name, Artist, Album, Genre, Charter, Year, songlength` (line 496).
Only well-formed records are modelled (a missing key would raise
`KeyError` mid-transaction and the uncommitted changes would roll back). -/
structure UploadSong where
  name : String
  artist : String
  album : String
  genre : String
  charter : String
  year : Int
  songlength : Int
deriving DecidableEq

/-- A decoded inbound JSON object.  Each field is `none` when the key is
absent (reading an absent field with `data['k']` raises `KeyError`, which
`handle_message` catches and logs at lines 516-517; `data.get(...)`
supplies a default instead). -/
structure RawMsg where
  action : Option String := none
  user_id : Option String := none
  is_admin : Option Bool := none
  user_name : Option String := none
  user_avatar : Option String := none
  song_id : Option Nat := none
  queue_id : Option Nat := none
  vote_type : Option String := none
  songs : Option (List UploadSong) := none
  artists : Option (List String) := none
  sort_type : Option String := none
deriving DecidableEq

/-- The whole server: database, `clients` dict, `admin_clients` set and
the artist caches (all module-level state in the source). -/
structure ServerState where
  db : DBState
  clients : List (String × ClientInfo)
  admins : List String
  caches : ArtistCaches
deriving DecidableEq

/-- An outbound envelope sent to a single connection (section 6 of the
spec): the full-state snapshot of `send_state`, the `artist_images`
reply, or an `error` reply (which `handler` would send at lines 625-651,
were those handlers reachable). -/
inductive OutMsg where
  | stateMsg (payload : StatePayload)
  | artistImages (results : List (String × String))
  | errorMsg (message : String)
deriving DecidableEq

/-- The observable outcome of one `handle_message` call: the next server
state, whether `broadcast_state()` was invoked, and the messages sent to
the calling connection only. -/
structure StepResult where
  state : ServerState
  broadcast : Bool
  replies : List OutMsg
deriving DecidableEq

/-- An exception caught and merely logged, or a branch that falls through:
nothing changes, nothing is sent, no broadcast. -/
def noEffect (st : ServerState) : StepResult := ⟨st, false, []⟩

/-- `admin_clients.add(websocket)` (a Python set). -/
def addAdmin (ws : String) (admins : List String) : List String :=
  if ws ∈ admins then admins else admins ++ [ws]

/-- The SQLite rowid given to a fresh `queue` row (`INTEGER PRIMARY KEY`
without AUTOINCREMENT): one more than the largest existing id. -/
def newQueueId (q : List QueueEntry) : Nat :=
  (q.foldl (fun m e => max m e.id) 0) + 1

/-- The `vote` UPDATE (lines 448-451): `'up'` increments `upvotes`, any
other string falls into the `else` and increments `downvotes`. -/
def applyVote (vote_type : String) (e : QueueEntry) : QueueEntry :=
  if vote_type = "up" then { e with upvotes := e.upvotes + 1 }
  else { e with downvotes := e.downvotes + 1 }

/-- `upload_songs`: `DELETE FROM songs` then insert each record in order;
the `INTEGER PRIMARY KEY` rowids restart at 1 after the delete-all
(lines 493-496). -/
def uploadCatalog (ss : List UploadSong) : List Song :=
  ((List.range ss.length).zip ss).map fun p =>
    { id := p.1 + 1, name := p.2.name, artist := p.2.artist,
      album := p.2.album, genre := p.2.genre, charter := p.2.charter,
      year := p.2.year, songlength := p.2.songlength }

/-- The field projection of a catalog row back to its upload record. -/
def songFields (s : Song) : UploadSong :=
  ⟨s.name, s.artist, s.album, s.genre, s.charter, s.year, s.songlength⟩

/-- `handle_message(websocket, message)` (lines 391-521).

* `input = none` models a `json.JSONDecodeError`: the function logs and
  returns (lines 396-398) — no reply, no state change, no broadcast.
* `now` is the `CURRENT_TIMESTAMP` used by SQLite defaults, `freshId` the
  `str(uuid.uuid4())` default of `join`.
* The chain of `elif`s is reproduced verbatim, including the duplicated
  `request_song` branch: the first copy (lines 418-422) wins and is
  truncated — it opens a database connection and falls off the end of the
  branch without inserting or broadcasting — so the complete second copy
  (lines 432-441) is dead code, kept here for fidelity.
* Every exception raised inside the body (`KeyError` for a missing field,
  the `TypeError` from subscripting `fetchone()`'s `None`) is caught by
  the blanket handlers at lines 516-521, which only log — `noEffect`. -/
def handle_message (st : ServerState) (ws : String) (now : Nat)
    (freshId : String) (input : Option RawMsg) : StepResult :=
  match input with
  | none => noEffect st
  | some data =>
    match data.action with
    | none => noEffect st
    | some a =>
      if a = "join" then
        let user_id := data.user_id.getD freshId
        let is_admin := data.is_admin.getD false
        let user_name := data.user_name.getD ""
        let user_avatar := data.user_avatar.getD "🐰"
        let clients' := upsertAssoc ws ⟨user_id, is_admin, user_name, user_avatar⟩ st.clients
        let admins' := if is_admin then addAdmin ws st.admins else st.admins
        let db' := { st.db with users := upsertUser ⟨user_id, user_name, user_avatar⟩ st.db.users }
        ⟨{ st with clients := clients', admins := admins', db := db' },
         false, [OutMsg.stateMsg (serializeState db')]⟩
      else if a = "request_song" then
        -- first copy, lines 418-422: truncated, performs no insert
        match data.song_id with
        | none => noEffect st
        | some _ =>
          match lookupAssoc ws st.clients with
          | none => noEffect st
          | some _ => noEffect st
      else if a = "lookup_artist_images" then
        let artists := data.artists.getD []
        if artists.isEmpty then noEffect st
        else
          let r := lookup_artist_images st.caches artists
          ⟨{ st with caches := r.2 }, false, [OutMsg.artistImages r.1]⟩
      else if a = "request_song" then
        -- second copy, lines 432-441: dead (the first copy already matched)
        match data.song_id with
        | none => noEffect st
        | some sid =>
          match lookupAssoc ws st.clients with
          | none => noEffect st
          | some info =>
            let e : QueueEntry :=
              { id := newQueueId st.db.queue, song_id := sid,
                user_id := info.user_id, upvotes := 0, downvotes := 0,
                requested_at := now }
            ⟨{ st with db := { st.db with queue := st.db.queue ++ [e] } }, true, []⟩
      else if a = "vote" then
        match data.queue_id with
        | none => noEffect st
        | some qid =>
          match data.vote_type with
          | none => noEffect st
          | some vt =>
            let q' := st.db.queue.map (fun e => if e.id == qid then applyVote vt e else e)
            ⟨{ st with db := { st.db with queue := q' } }, true, []⟩
      else if a = "mark_played" then
        if ws ∈ st.admins then
          match data.queue_id with
          | none => noEffect st
          | some qid =>
            match st.db.queue.find? (fun e => e.id == qid) with
            | none => noEffect st
            | some e =>
              ⟨{ st with db := { st.db with
                   history := st.db.history ++ [⟨e.song_id, now⟩],
                   queue := st.db.queue.filter (fun x => x.id != qid) } },
               true, []⟩
        else noEffect st
      else if a = "remove_song" then
        if ws ∈ st.admins then
          match data.queue_id with
          | none => noEffect st
          | some qid =>
            ⟨{ st with db := { st.db with
                 queue := st.db.queue.filter (fun x => x.id != qid) } }, true, []⟩
        else noEffect st
      else if a = "remove_all" then
        if ws ∈ st.admins then
          ⟨{ st with db := { st.db with queue := [] } }, true, []⟩
        else noEffect st
      else if a = "upload_songs" then
        if ws ∈ st.admins then
          match data.songs with
          | none => noEffect st
          | some ss =>
            ⟨{ st with db := { st.db with songs := uploadCatalog ss } }, true, []⟩
        else noEffect st
      else if a = "sort_queue" then
        match data.sort_type with
        | none => noEffect st
        | some _ => ⟨st, true, []⟩
          -- runs a SELECT whose rows are discarded, then broadcasts (lines 501-515)
      else noEffect st

/-! ## Broadcast fan-out (`broadcast_state`, lines 552-592) -/

/-- A live connection as the fan-out sees it: its key in the `clients`
dict, the stored info, and whether `await client.send(...)` succeeds for
it during this broadcast. -/
structure Conn where
  ws : String
  info : ClientInfo
  sendOk : Bool
deriving DecidableEq

/-- The send loop (lines 578-584): try each recipient in order; a failure
is caught per-recipient and recorded in `disconnected_clients`, and the
loop continues.  Returns (deliveries, disconnected). -/
def fanOut (payload : StatePayload) :
    List Conn → List (String × StatePayload) × List Conn
  | [] => ([], [])
  | c :: cs =>
      let r := fanOut payload cs
      if c.sendOk then ((c.ws, payload) :: r.1, r.2) else (r.1, c :: r.2)

/-- The eviction loop (lines 586-592): for each disconnected client still
present, remove it from `clients` and — when its stored info says it is an
admin — from `admin_clients`. -/
def evict (disconnected : List Conn) (conns : List Conn) (admins : List String) :
    List Conn × List String :=
  disconnected.foldl
    (fun acc c =>
      match acc.1.find? (fun x => x.ws == c.ws) with
      | some x =>
          (acc.1.filter (fun y => y.ws != c.ws),
           if x.info.is_admin then acc.2.filter (fun a => a != c.ws) else acc.2)
      | none => acc)
    (conns, admins)

/-- `broadcast_state()` (lines 552-592): serialize the state exactly once
(`message` is computed before the loop, line 577), deliver it to every
client, then evict the failed recipients. -/
def broadcast_state (db : DBState) (conns : List Conn) (admins : List String) :
    List (String × StatePayload) × List Conn × List String :=
  let message := serializeState db
  let r := fanOut message conns
  let e := evict r.2 conns admins
  (r.1, e.1, e.2)

/-! ## Concrete scenario states used by the claim evaluations -/

/-- The catalog song of the spec's walked-through scenario (section 8). -/
def songA : Song := ⟨1, "A", "ArtistX", "", "", "", 2000, 180⟩

/-- The non-privileged participant C1 of the scenario. -/
def clientC1 : ClientInfo := ⟨"u1", false, "C1", "R"⟩

/-- C1 has joined; the catalog holds `songA`; the queue is empty. -/
def baseState : ServerState :=
  ⟨⟨[songA], [], [⟨"u1", "C1", "R"⟩], []⟩, [("c1", clientC1)], [], ⟨[], []⟩⟩

/-- A queue entry for `songA` requested by C1 with zero votes. -/
def entry1 : QueueEntry := ⟨1, 1, "u1", 0, 0, 50⟩

/-- Like `baseState` but with `entry1` pending in the queue. -/
def queueState : ServerState :=
  ⟨⟨[songA], [entry1], [⟨"u1", "C1", "R"⟩], []⟩, [("c1", clientC1)], [], ⟨[], []⟩⟩

/-- `queueState` plus a joined privileged connection `a1`. -/
def adminState : ServerState :=
  ⟨⟨[songA], [entry1], [⟨"u1", "C1", "R"⟩], []⟩,
   [("c1", clientC1), ("a1", ⟨"ua", true, "Adm", "R"⟩)], ["a1"], ⟨[], []⟩⟩

/-- The `vote` message as decoded JSON. -/
def voteMsg (qid : Nat) (vt : String) : RawMsg :=
  { action := some "vote", queue_id := some qid, vote_type := some vt }

/-! ## Generic sortedness lemmas for the `ORDER BY` model -/

theorem mem_insertLE {le : α → α → Bool} {a x : α} {l : List α}
    (h : x ∈ insertLE le a l) : x = a ∨ x ∈ l := by
  induction l with
  | nil =>
      simp only [insertLE, List.mem_singleton] at h
      exact Or.inl h
  | cons b t ih =>
      by_cases hab : le a b = true
      · simp only [insertLE, if_pos hab, List.mem_cons] at h
        simpa [List.mem_cons] using h
      · simp only [insertLE, if_neg hab, List.mem_cons] at h
        rcases h with rfl | h
        · exact Or.inr (List.mem_cons_self _ _)
        · rcases ih h with rfl | hx
          · exact Or.inl rfl
          · exact Or.inr (List.mem_cons_of_mem _ hx)

theorem pairwise_insertLE {le : α → α → Bool}
    (total : ∀ a b, le a b = true ∨ le b a = true)
    (trans : ∀ a b c, le a b = true → le b c = true → le a c = true)
    (a : α) {l : List α} (h : l.Pairwise (fun x y => le x y = true)) :
    (insertLE le a l).Pairwise (fun x y => le x y = true) := by
  induction l with
  | nil => simp [insertLE]
  | cons b t ih =>
      rw [List.pairwise_cons] at h
      obtain ⟨hb, ht⟩ := h
      by_cases hab : le a b = true
      · simp only [insertLE, if_pos hab]
        rw [List.pairwise_cons]
        refine ⟨?_, ?_⟩
        · intro x hx
          rcases List.mem_cons.mp hx with rfl | hx
          · exact hab
          · exact trans a b x hab (hb x hx)
        · rw [List.pairwise_cons]
          exact ⟨hb, ht⟩
      · have hba : le b a = true := (total a b).resolve_left hab
        simp only [insertLE, if_neg hab]
        rw [List.pairwise_cons]
        refine ⟨?_, ih ht⟩
        intro x hx
        rcases mem_insertLE hx with rfl | hx
        · exact hba
        · exact hb x hx

theorem pairwise_sortLE {le : α → α → Bool}
    (total : ∀ a b, le a b = true ∨ le b a = true)
    (trans : ∀ a b c, le a b = true → le b c = true → le a c = true) :
    ∀ l : List α, (sortLE le l).Pairwise (fun x y => le x y = true)
  | [] => by simp [sortLE]
  | a :: l => by
      simp only [sortLE]
      exact pairwise_insertLE total trans a (pairwise_sortLE total trans l)

theorem queueLE_total (a b : QueueView) : queueLE a b = true ∨ queueLE b a = true := by
  simp only [queueLE, Bool.or_eq_true, Bool.and_eq_true, decide_eq_true_eq]
  omega

theorem queueLE_trans (a b c : QueueView)
    (h1 : queueLE a b = true) (h2 : queueLE b c = true) : queueLE a c = true := by
  simp only [queueLE, Bool.or_eq_true, Bool.and_eq_true, decide_eq_true_eq] at h1 h2 ⊢
  omega

theorem queueLE_imp {a b : QueueView} (h : queueLE a b = true) :
    b.upvotes ≤ a.upvotes ∧
      (a.upvotes = b.upvotes → a.requested_at ≤ b.requested_at) := by
  simp only [queueLE, Bool.or_eq_true, Bool.and_eq_true, decide_eq_true_eq] at h
  omega

/-! ## Claims -/

/-- C3.  Every queue the server renders — the private join snapshot of
`send_state` and the payload of every `broadcast_state`, both of which are
`serializeState` of the current database — is ordered with upvotes
non-increasing and, among entries with equal upvotes, `requested_at`
non-decreasing (earlier request first). -/
theorem c3_rendered_queue_sorted (db : DBState) :
    ((serializeState db).queue).Pairwise
      (fun a b => b.upvotes ≤ a.upvotes ∧
        (a.upvotes = b.upvotes → a.requested_at ≤ b.requested_at)) := by
  simp only [serializeState, renderQueue]
  exact List.Pairwise.imp (fun hab => queueLE_imp hab)
    (pairwise_sortLE queueLE_total queueLE_trans _)

/-- C1.  Evaluation of the code at the claim's scenario: connection `c1`
has joined, song 1 is in the catalog, and `c1` sends
`request_song{song_id: 1}`.  The executed (first, truncated) branch of
`handle_message` leaves the whole state unchanged, broadcasts nothing and
replies nothing — the claimed queue append and broadcast do not happen
(the complete insert-and-broadcast branch at lines 432-441 is dead code
behind the truncated duplicate at lines 418-422). -/
theorem c1_request_song_is_noop :
    baseState.db.songs.any (fun s => s.id == 1) = true ∧
    (lookupAssoc "c1" baseState.clients).isSome = true ∧
    handle_message baseState "c1" 100 "fresh"
      (some { action := some "request_song", song_id := some 1 }) = noEffect baseState := by
  refine ⟨by decide, by decide, by decide⟩

/-- C7.  Evaluation of the code at malformed and unknown events: invalid
JSON, a `vote` missing its required `queue_id`/`vote_type` fields, and an
unrecognised action.  In each case the engine does not crash, leaves the
state unchanged and broadcasts nothing — but, contrary to the claim, the
caller receives no error reply either (`handle_message` swallows the
exceptions at lines 396-398 and 516-521 before the reply code in
`handler`, lines 625-651, can run). -/
theorem c7_malformed_events_unreplied :
    handle_message baseState "c1" 100 "f" none = noEffect baseState ∧
    handle_message baseState "c1" 100 "f" (some { action := some "vote" }) =
      noEffect baseState ∧
    handle_message baseState "c1" 100 "f" (some { action := some "frobnicate" }) =
      noEffect baseState := by
  refine ⟨by decide, by decide, by decide⟩

/-! ## Vote handling lemmas (claims C4, C5, C10) -/

/-- A whole sequence of votes applied to one entry. -/
def applyVotes (vts : List String) (e : QueueEntry) : QueueEntry :=
  vts.foldl (fun x vt => applyVote vt x) e

/-- The queue rewrite performed by one `vote` UPDATE. -/
def voteQueue (qid : Nat) (vt : String) (q : List QueueEntry) : List QueueEntry :=
  q.map (fun e => if e.id == qid then applyVote vt e else e)

/-- The queue rewrite performed by a whole sequence of `vote` events. -/
def votesQueue (qid : Nat) (vts : List String) (q : List QueueEntry) : List QueueEntry :=
  q.map (fun e => if e.id == qid then applyVotes vts e else e)

/-- A sequence of `vote` events for queue id `qid`, processed by
`handle_message` in order. -/
def runVotes (st : ServerState) (ws : String) (now : Nat) (fid : String)
    (qid : Nat) (vts : List String) : ServerState :=
  vts.foldl (fun s vt => (handle_message s ws now fid (some (voteMsg qid vt))).state) st

/-- The `vote` branch of `handle_message` in closed form: every queue row
whose id matches is updated by `applyVote`, a broadcast is triggered
unconditionally, nothing is replied. -/
theorem handle_message_vote_eq (st : ServerState) (ws : String) (now : Nat)
    (fid : String) (qid : Nat) (vt : String) :
    handle_message st ws now fid (some (voteMsg qid vt)) =
      ⟨{ st with db := { st.db with queue := voteQueue qid vt st.db.queue } }, true, []⟩ := rfl

/-- `applyVote` never changes the entry id. -/
theorem applyVote_id (vt : String) (e : QueueEntry) : (applyVote vt e).id = e.id := by
  unfold applyVote
  split <;> rfl

theorem applyVotes_id (vts : List String) (e : QueueEntry) :
    (applyVotes vts e).id = e.id := by
  induction vts generalizing e with
  | nil => rfl
  | cons v vts ih =>
      have h1 : applyVotes (v :: vts) e = applyVotes vts (applyVote v e) := rfl
      rw [h1, ih (applyVote v e), applyVote_id]

theorem votesQueue_cons (qid : Nat) (v : String) (vts : List String)
    (q : List QueueEntry) :
    votesQueue qid vts (voteQueue qid v q) = votesQueue qid (v :: vts) q := by
  simp only [votesQueue, voteQueue, List.map_map]
  congr 1
  funext e
  by_cases h : (e.id == qid) = true
  · simp only [Function.comp_apply, h, if_true, applyVote_id, applyVotes,
      List.foldl_cons]
  · simp only [Function.comp_apply, h, if_false, Bool.false_eq_true]

/-- Running the votes rewrites the queue pointwise: matching rows get the
whole vote sequence, others are untouched. -/
theorem runVotes_queue (ws : String) (now : Nat) (fid : String) (qid : Nat) :
    ∀ (vts : List String) (st : ServerState),
    (runVotes st ws now fid qid vts).db.queue = votesQueue qid vts st.db.queue
  | [], st => by
      simp [runVotes, votesQueue, applyVotes]
  | v :: vts, st => by
      have step : runVotes st ws now fid qid (v :: vts) =
          runVotes ((handle_message st ws now fid (some (voteMsg qid v))).state)
            ws now fid qid vts := rfl
      rw [step, handle_message_vote_eq]
      rw [runVotes_queue ws now fid qid vts]
      exact votesQueue_cons qid v vts st.db.queue

/-- Counting the effect of a vote sequence on the upvote counter: exactly
one increment per `'up'` vote. -/
theorem applyVotes_upvotes (vts : List String) (e : QueueEntry) :
    (applyVotes vts e).upvotes = e.upvotes + (vts.count "up" : Int) := by
  induction vts generalizing e with
  | nil => simp [applyVotes]
  | cons v vts ih =>
      have h1 : applyVotes (v :: vts) e = applyVotes vts (applyVote v e) := rfl
      rw [h1, ih]
      by_cases hv : v = "up"
      · subst hv
        simp [applyVote, List.count_cons]
        ring
      · have hb : (v == "up") = false := by
          simpa using hv
        simp [applyVote, hv, List.count_cons, hb]

/-- Counting the effect on the downvote counter: one increment per vote
whose type is anything other than `'up'`. -/
theorem applyVotes_downvotes (vts : List String) (e : QueueEntry) :
    (applyVotes vts e).downvotes =
      e.downvotes + (vts.countP (fun v => !(v == "up")) : Int) := by
  induction vts generalizing e with
  | nil => simp [applyVotes]
  | cons v vts ih =>
      have h1 : applyVotes (v :: vts) e = applyVotes vts (applyVote v e) := rfl
      rw [h1, ih]
      by_cases hv : v = "up"
      · subst hv
        simp [applyVote, List.countP_cons]
      · have hb : (v == "up") = false := by
          simpa using hv
        simp [applyVote, hv, List.countP_cons, hb]
        ring

/-- On a sequence of well-formed votes, the non-`'up'` votes are exactly
the `'down'` votes. -/
theorem countP_ne_up_eq_count_down (vts : List String)
    (hv : ∀ v ∈ vts, v = "up" ∨ v = "down") :
    vts.countP (fun v => !(v == "up")) = vts.count "down" := by
  induction vts with
  | nil => simp
  | cons v vts ih =>
      have hv' : ∀ x ∈ vts, x = "up" ∨ x = "down" := fun x hx => hv x (List.mem_cons_of_mem _ hx)
      rcases hv v (List.mem_cons_self _ _) with rfl | rfl
      · simp [List.countP_cons, List.count_cons, ih hv']
      · simp [List.countP_cons, List.count_cons, ih hv']

/-- `find?` over an id-preserving rewrite commutes with the rewrite. -/
theorem find?_map_id_preserving {g : QueueEntry → QueueEntry}
    (hg : ∀ e, (g e).id = e.id) (qid : Nat) (l : List QueueEntry) :
    (l.map g).find? (fun e => e.id == qid) =
      ((l.find? (fun e => e.id == qid)).map g) := by
  induction l with
  | nil => rfl
  | cons e l ih =>
      cases hbe : (e.id == qid) with
      | true =>
          have hbe' : ((g e).id == qid) = true := by rw [hg]; exact hbe
          simp [List.map_cons, List.find?_cons, hbe, hbe']
      | false =>
          have hbe' : ((g e).id == qid) = false := by rw [hg]; exact hbe
          simp [List.map_cons, List.find?_cons, hbe, hbe', ih]

/-- C4 (counterexample to the claim as stated).  A single vote whose
`vote_type` is `'sideways'` — a vote event, but neither `'up'` nor
`'down'` — applied to the zero-vote entry `entry1` leaves the entry with
`downvotes = 1`, although the number of `'down'` votes received is `0`:
the entry's downvotes do not equal the count of `'down'` votes. -/
theorem c4_counterexample :
    (((runVotes queueState "c1" 100 "f" 1 ["sideways"]).db.queue.find?
        (fun x => x.id == 1)).map QueueEntry.downvotes = some 1) ∧
    (["sideways"].count "down" = 0) ∧
    (((runVotes queueState "c1" 100 "f" 1 ["sideways"]).db.queue.find?
        (fun x => x.id == 1)).map QueueEntry.downvotes ≠
      some ((["sideways"].count "down" : Nat) : Int)) := by
  refine ⟨by decide, by decide, by decide⟩

/-- C4 (amended).  For every sequence of `vote` events **whose vote_type
is `'up'` or `'down'`** applied to an existing queue entry that starts at
zero votes, the entry's upvotes equal the number of `'up'` votes and its
downvotes the number of `'down'` votes; each single vote event increments
exactly one of the two counters by exactly 1, and both counters remain
non-negative.  (The unrestricted claim is false: any vote_type other than
`'up'` — e.g. `'sideways'` — also increments downvotes, see the
counterexample.) -/
theorem c4_vote_counts (st : ServerState) (ws : String) (now : Nat)
    (fid : String) (qid : Nat) (vts : List String) (e : QueueEntry)
    (hfind : st.db.queue.find? (fun x => x.id == qid) = some e)
    (hup : e.upvotes = 0) (hdown : e.downvotes = 0)
    (hv : ∀ v ∈ vts, v = "up" ∨ v = "down") :
    ((runVotes st ws now fid qid vts).db.queue.find? (fun x => x.id == qid)
        = some (applyVotes vts e)) ∧
    (applyVotes vts e).upvotes = (vts.count "up" : Int) ∧
    (applyVotes vts e).downvotes = (vts.count "down" : Int) ∧
    0 ≤ (applyVotes vts e).upvotes ∧ 0 ≤ (applyVotes vts e).downvotes ∧
    (∀ v x, ((applyVote v x).upvotes = x.upvotes + 1 ∧
              (applyVote v x).downvotes = x.downvotes) ∨
            ((applyVote v x).upvotes = x.upvotes ∧
              (applyVote v x).downvotes = x.downvotes + 1)) := by
  have hid : (e.id == qid) = true := by
    have h := List.find?_some hfind
    simpa using h
  have hfind' : (runVotes st ws now fid qid vts).db.queue.find?
      (fun x => x.id == qid) = some (applyVotes vts e) := by
    rw [runVotes_queue, votesQueue]
    have hg : ∀ x : QueueEntry,
        ((fun x => if x.id == qid then applyVotes vts x else x) x).id = x.id := by
      intro x
      by_cases h : (x.id == qid) = true
      · simp [h, applyVotes_id]
      · simp [h]
    rw [find?_map_id_preserving hg qid st.db.queue, hfind]
    have hideq : e.id = qid := by simpa using hid
    simp [hideq]
  refine ⟨hfind', ?_, ?_, ?_, ?_, ?_⟩
  · rw [applyVotes_upvotes, hup]
    simp
  · rw [applyVotes_downvotes, hdown, countP_ne_up_eq_count_down vts hv]
    simp
  · rw [applyVotes_upvotes, hup]
    simp
  · rw [applyVotes_downvotes, hdown]
    simp
  · intro v x
    by_cases h : v = "up"
    · exact Or.inl (by simp [applyVote, h])
    · exact Or.inr (by simp [applyVote, h])

/-- Witness for C4 (amended): `entry1` (0/0 votes) receives the sequence
up, down, up and ends with 2 upvotes and 1 downvote. -/
theorem c4_vote_counts_witness :
    (queueState.db.queue.find? (fun x => x.id == 1) = some entry1) ∧
    ((runVotes queueState "c1" 100 "f" 1 ["up", "down", "up"]).db.queue.find?
        (fun x => x.id == 1) = some (applyVotes ["up", "down", "up"] entry1)) ∧
    (applyVotes ["up", "down", "up"] entry1).upvotes = 2 ∧
    (applyVotes ["up", "down", "up"] entry1).downvotes = 1 :=
  have h := c4_vote_counts queueState "c1" 100 "f" 1 ["up", "down", "up"] entry1
    (by decide) (by decide) (by decide) (by decide)
  ⟨by decide, h.1, by decide, by decide⟩

/-- A vote UPDATE that matches no row is the identity on the queue. -/
theorem voteQueue_no_match (qid : Nat) (vt : String) (l : List QueueEntry)
    (h : ∀ e ∈ l, e.id ≠ qid) : voteQueue qid vt l = l := by
  induction l with
  | nil => rfl
  | cons e l ih =>
      have he : (e.id == qid) = false := by
        simpa using h e (List.mem_cons_self _ _)
      have htail := ih (fun x hx => h x (List.mem_cons_of_mem _ hx))
      simp only [voteQueue, List.map_cons, he, if_false, Bool.false_eq_true]
      simp only [voteQueue] at htail
      rw [htail]

/-- C5 (counterexample to the claim as stated).  A vote for queue id 5,
which matches no entry of `baseState`'s empty queue, leaves the state
unchanged — but `broadcast_state()` is still invoked (the claim says no
broadcast occurs without a state change) and nothing at all is sent back
to the caller (the claim says the failure is reported). -/
theorem c5_counterexample :
    (handle_message baseState "c1" 100 "f" (some (voteMsg 5 "up"))).state = baseState ∧
    (handle_message baseState "c1" 100 "f" (some (voteMsg 5 "up"))).broadcast = true ∧
    (handle_message baseState "c1" 100 "f" (some (voteMsg 5 "up"))).replies = [] := by
  refine ⟨by decide, by decide, by decide⟩

/-- C5 (amended).  For every `vote` event whose queue_id matches no
existing queue entry, the session state is unchanged and nothing is sent
to the caller, but a broadcast of the (unchanged) state still occurs: the
`UPDATE` matches no row and `broadcast_state()` runs unconditionally at
the end of the branch (line 454); no failure report exists in the code. -/
theorem c5_unknown_vote_broadcasts (st : ServerState) (ws : String) (now : Nat)
    (fid : String) (qid : Nat) (vt : String)
    (h : ∀ e ∈ st.db.queue, e.id ≠ qid) :
    handle_message st ws now fid (some (voteMsg qid vt)) = ⟨st, true, []⟩ := by
  rw [handle_message_vote_eq, voteQueue_no_match qid vt st.db.queue h]

/-- Witness for C5 (amended), at the concrete no-match input of the
counterexample. -/
theorem c5_unknown_vote_broadcasts_witness :
    (∀ e ∈ baseState.db.queue, e.id ≠ 5) ∧
    handle_message baseState "c1" 100 "f" (some (voteMsg 5 "up")) =
      ⟨baseState, true, []⟩ :=
  ⟨by decide, c5_unknown_vote_broadcasts baseState "c1" 100 "f" 5 "up" (by decide)⟩

/-- C10.  A `vote` event on an existing entry with any vote_type other
than `'up'` — `'sideways'`, `'down'`, the empty string — falls into the
`else` branch of line 450 and increments the entry's downvotes by 1
(leaving upvotes untouched); the code never validates vote_type against
the set `{'up','down'}`. -/
theorem c10_nonup_vote_increments_downvotes (st : ServerState) (ws : String)
    (now : Nat) (fid : String) (qid : Nat) (vt : String) (e : QueueEntry)
    (hvt : vt ≠ "up")
    (hfind : st.db.queue.find? (fun x => x.id == qid) = some e) :
    (handle_message st ws now fid (some (voteMsg qid vt))).state.db.queue.find?
        (fun x => x.id == qid) =
      some { e with downvotes := e.downvotes + 1 } := by
  have hid : (e.id == qid) = true := by
    have h := List.find?_some hfind
    simpa using h
  rw [handle_message_vote_eq]
  have hg : ∀ x : QueueEntry,
      ((fun x => if x.id == qid then applyVote vt x else x) x).id = x.id := by
    intro x
    by_cases h : (x.id == qid) = true
    · simp [h, applyVote_id]
    · simp [h]
  show (voteQueue qid vt st.db.queue).find? (fun x => x.id == qid) =
    some { e with downvotes := e.downvotes + 1 }
  rw [voteQueue, find?_map_id_preserving hg qid st.db.queue, hfind]
  have hideq : e.id = qid := by simpa using hid
  simp [hideq, applyVote, hvt]

/-- Witness for C10: voting `'sideways'` on `entry1` yields downvotes 1. -/
theorem c10_nonup_vote_increments_downvotes_witness :
    ("sideways" ≠ "up") ∧
    (queueState.db.queue.find? (fun x => x.id == 1) = some entry1) ∧
    (handle_message queueState "c1" 100 "f"
        (some (voteMsg 1 "sideways"))).state.db.queue.find? (fun x => x.id == 1) =
      some { entry1 with downvotes := entry1.downvotes + 1 } :=
  ⟨by decide, by decide,
   c10_nonup_vote_increments_downvotes queueState "c1" 100 "f" 1 "sideways" entry1
     (by decide) (by decide)⟩

/-- C2.  Any of the four privileged actions sent by a connection that is
not in `admin_clients` is silently ignored: the state (queue, catalog and
all) is unchanged, no broadcast occurs, and no error reply is sent — the
entire branch body sits inside `if websocket in admin_clients:`
(lines 456-499) with no `else`. -/
theorem c2_unprivileged_actions_silent (st : ServerState) (ws : String)
    (now : Nat) (fid : String) (msg : RawMsg) (a : String)
    (hws : ws ∉ st.admins) (ha : msg.action = some a)
    (hpriv : a = "mark_played" ∨ a = "remove_song" ∨ a = "remove_all" ∨
      a = "upload_songs") :
    handle_message st ws now fid (some msg) = noEffect st := by
  rcases hpriv with rfl | rfl | rfl | rfl <;>
    simp [handle_message, ha, hws, noEffect]

/-- Witness for C2: the non-admin `c1` sends `remove_all` against
`queueState` and nothing happens. -/
theorem c2_unprivileged_actions_silent_witness :
    ("c1" ∉ queueState.admins) ∧
    handle_message queueState "c1" 100 "f" (some { action := some "remove_all" }) =
      noEffect queueState :=
  ⟨by decide,
   c2_unprivileged_actions_silent queueState "c1" 100 "f"
     { action := some "remove_all" } "remove_all" (by decide) rfl
     (Or.inr (Or.inr (Or.inl rfl)))⟩

/-- Round trip: the catalog rows written by `upload_songs` project back to
exactly the uploaded records. -/
theorem uploadCatalog_map_songFields (ss : List UploadSong) :
    (uploadCatalog ss).map songFields = ss := by
  simp only [uploadCatalog, List.map_map]
  have hc : (songFields ∘ fun p : Nat × UploadSong =>
      ({ id := p.1 + 1, name := p.2.name, artist := p.2.artist, album := p.2.album,
         genre := p.2.genre, charter := p.2.charter, year := p.2.year,
         songlength := p.2.songlength } : Song)) = Prod.snd := by
    funext p
    rfl
  rw [hc]
  exact List.map_snd_zip _ _ (by simp)

/-- C6.  `upload_songs` from a privileged connection replaces the catalog
wholesale (`DELETE FROM songs` then insert-all, lines 493-496): whatever
the prior catalog was (`st` is arbitrary), afterwards its rows project
field-for-field to exactly the uploaded list — nothing survives and
nothing is patched — and the change is broadcast. -/
theorem c6_upload_replaces_catalog (st : ServerState) (ws : String)
    (now : Nat) (fid : String) (msg : RawMsg) (ss : List UploadSong)
    (hadm : ws ∈ st.admins) (ha : msg.action = some "upload_songs")
    (hs : msg.songs = some ss) :
    (handle_message st ws now fid (some msg)).state.db.songs.map songFields = ss ∧
    (handle_message st ws now fid (some msg)).state.db.songs.length = ss.length ∧
    (handle_message st ws now fid (some msg)).broadcast = true := by
  have hst : (handle_message st ws now fid (some msg)).state.db.songs =
      uploadCatalog ss := by
    simp [handle_message, ha, hs, hadm]
  refine ⟨?_, ?_, ?_⟩
  · rw [hst]
    exact uploadCatalog_map_songFields ss
  · have h := congrArg List.length (uploadCatalog_map_songFields ss)
    rw [List.length_map] at h
    rw [hst]
    exact h
  · simp [handle_message, ha, hs, hadm]

/-- Witness for C6: the admin `a1` uploads a one-song list over
`adminState`'s one-song catalog. -/
theorem c6_upload_replaces_catalog_witness :
    ("a1" ∈ adminState.admins) ∧
    (handle_message adminState "a1" 100 "f"
        (some { action := some "upload_songs",
                songs := some [⟨"N", "Ar", "Al", "G", "Ch", 2001, 200⟩] })).state.db.songs.map
        songFields = [⟨"N", "Ar", "Al", "G", "Ch", 2001, 200⟩] :=
  ⟨by decide,
   (c6_upload_replaces_catalog adminState "a1" 100 "f"
     { action := some "upload_songs",
       songs := some [⟨"N", "Ar", "Al", "G", "Ch", 2001, 200⟩] }
     [⟨"N", "Ar", "Al", "G", "Ch", 2001, 200⟩] (by decide) rfl rfl).1⟩

/-! ## Broadcast fan-out lemmas (claim C8) -/

theorem fanOut_deliveries (p : StatePayload) (l : List Conn) :
    (fanOut p l).1 = (l.filter (fun c => c.sendOk)).map (fun c => (c.ws, p)) := by
  induction l with
  | nil => rfl
  | cons c cs ih =>
      by_cases h : c.sendOk = true <;> simp [fanOut, h, ih]

theorem fanOut_disconnected (p : StatePayload) (l : List Conn) :
    (fanOut p l).2 = l.filter (fun c => !c.sendOk) := by
  induction l with
  | nil => rfl
  | cons c cs ih =>
      by_cases h : c.sendOk = true <;> simp [fanOut, h, ih]

/-- One step of the eviction fold, spelled out. -/
theorem evict_cons (c : Conn) (d : List Conn) (l : List Conn)
    (adm : List String) :
    evict (c :: d) l adm =
      (match l.find? (fun x => x.ws == c.ws) with
       | some x => evict d (l.filter (fun y => y.ws != c.ws))
           (if x.info.is_admin then adm.filter (fun a => a != c.ws) else adm)
       | none => evict d l adm) := by
  cases h : l.find? (fun x => x.ws == c.ws) <;>
    simp [evict, List.foldl_cons, h]

theorem evict_conns_subset :
    ∀ (d l : List Conn) (adm : List String), ∀ x ∈ (evict d l adm).1, x ∈ l
  | [], _, _, _, hx => hx
  | c :: d, l, adm, x, hx => by
      rw [evict_cons] at hx
      cases h : l.find? (fun y => y.ws == c.ws) with
      | some y =>
          rw [h] at hx
          have := evict_conns_subset d _ _ x hx
          exact List.mem_of_mem_filter this
      | none =>
          rw [h] at hx
          exact evict_conns_subset d _ _ x hx

theorem evict_admins_subset :
    ∀ (d l : List Conn) (adm : List String), ∀ a ∈ (evict d l adm).2, a ∈ adm
  | [], _, _, _, ha => ha
  | c :: d, l, adm, a, ha => by
      rw [evict_cons] at ha
      cases h : l.find? (fun y => y.ws == c.ws) with
      | some y =>
          rw [h] at ha
          have h2 := evict_admins_subset d _ _ a ha
          by_cases hadm : y.info.is_admin = true
          · rw [if_pos hadm] at h2
            exact List.mem_of_mem_filter h2
          · rw [if_neg hadm] at h2
            exact h2
      | none =>
          rw [h] at ha
          exact evict_admins_subset d _ _ a ha

/-- Every connection processed by the eviction loop is gone from the
surviving roster. -/
theorem evict_removes :
    ∀ (d l : List Conn) (adm : List String), ∀ c ∈ d,
      ∀ x ∈ (evict d l adm).1, x.ws ≠ c.ws
  | [], _, _, _, hc, _, _ => absurd hc (List.not_mem_nil _)
  | c :: d, l, adm, c', hc', x, hx => by
      rcases List.mem_cons.mp hc' with rfl | hc'
      · rw [evict_cons] at hx
        cases h : l.find? (fun y => y.ws == c'.ws) with
        | some y =>
            rw [h] at hx
            have hxl := evict_conns_subset d _ _ x hx
            have := List.of_mem_filter hxl
            simpa using this
        | none =>
            rw [h] at hx
            have hxl := evict_conns_subset d _ _ x hx
            have hno := List.find?_eq_none.mp h x hxl
            simpa using hno
      · rw [evict_cons] at hx
        cases h : l.find? (fun y => y.ws == c.ws) with
        | some y =>
            rw [h] at hx
            exact evict_removes d _ _ c' hc' x hx
        | none =>
            rw [h] at hx
            exact evict_removes d _ _ c' hc' x hx

/-- Every admin connection processed by the eviction loop is also gone
from `admin_clients` afterwards, provided connection keys are distinct
(websocket objects are distinct dict keys) and the processed connections
come from the roster. -/
theorem evict_removes_admin :
    ∀ (d l : List Conn) (adm : List String),
      (l.map Conn.ws).Nodup → (∀ x ∈ d, x ∈ l) → (d.map Conn.ws).Nodup →
      ∀ c ∈ d, c.info.is_admin = true → c.ws ∉ (evict d l adm).2
  | [], _, _, _, _, _, _, hc, _ => absurd hc (List.not_mem_nil _)
  | c :: d, l, adm, hl, hdl, hdn, c', hc', hadm => by
      rw [evict_cons]
      rcases List.mem_cons.mp hc' with rfl | hc'
      · cases h : l.find? (fun y => y.ws == c'.ws) with
        | none =>
            exfalso
            have hno := List.find?_eq_none.mp h c' (hdl c' (List.mem_cons_self _ _))
            simp at hno
        | some y =>
            have hy_mem : y ∈ l := List.mem_of_find?_eq_some h
            have hy_ws : y.ws = c'.ws := by
              have hp := List.find?_some h
              simpa using hp
            have hy_eq : y = c' :=
              List.inj_on_of_nodup_map hl hy_mem
                (hdl c' (List.mem_cons_self _ _)) hy_ws
            subst hy_eq
            show y.ws ∉ (evict d (l.filter (fun x => x.ws != y.ws))
                (if y.info.is_admin = true then
                  adm.filter (fun a => a != y.ws) else adm)).2
            rw [if_pos hadm]
            intro hmem
            have hsub := evict_admins_subset d _ _ _ hmem
            have hflt := List.of_mem_filter hsub
            simp at hflt
      · have hdn' : c.ws ∉ d.map Conn.ws ∧ (d.map Conn.ws).Nodup := by
          rw [List.map_cons, List.nodup_cons] at hdn
          exact hdn
        cases h : l.find? (fun y => y.ws == c.ws) with
        | none =>
            exact evict_removes_admin d l adm hl
              (fun x hx => hdl x (List.mem_cons_of_mem _ hx)) hdn'.2 c' hc' hadm
        | some y =>
            apply evict_removes_admin d _ _ ?_ ?_ hdn'.2 c' hc' hadm
            · exact ((List.filter_sublist l).map Conn.ws).nodup hl
            · intro x hx
              have hxl := hdl x (List.mem_cons_of_mem _ hx)
              refine List.mem_filter.mpr ⟨hxl, ?_⟩
              have hxd : x.ws ∈ d.map Conn.ws := List.mem_map_of_mem _ hx
              have hne : x.ws ≠ c.ws := by
                intro heq
                exact hdn'.1 (heq ▸ hxd)
              simpa using hne

/-- C8.  During a broadcast the state payload is serialized exactly once
(`message` is computed once, before the send loop — every delivery
carries that same `serializeState db`); a send failure to one recipient
never prevents delivery to the others (every `sendOk` connection receives
the payload whatever the rest do); and each failed recipient is caught
individually, evicted from the roster, evicted from `admin_clients` when
its stored info marks it an admin, and receives no delivery.  Connection
keys are distinct (`hnd`), as Python dict keys are. -/
theorem c8_broadcast_fault_isolation (db : DBState) (conns : List Conn)
    (admins : List String) (hnd : (conns.map Conn.ws).Nodup) :
    (∀ p ∈ (broadcast_state db conns admins).1, p.2 = serializeState db) ∧
    (∀ c ∈ conns, c.sendOk = true →
       (c.ws, serializeState db) ∈ (broadcast_state db conns admins).1) ∧
    (∀ c ∈ conns, c.sendOk = false →
       (∀ p ∈ (broadcast_state db conns admins).1, p.1 ≠ c.ws) ∧
       (∀ x ∈ (broadcast_state db conns admins).2.1, x.ws ≠ c.ws) ∧
       (c.info.is_admin = true → c.ws ∉ (broadcast_state db conns admins).2.2)) := by
  have hdel : (broadcast_state db conns admins).1 =
      (conns.filter (fun c => c.sendOk)).map (fun c => (c.ws, serializeState db)) := by
    simp [broadcast_state, fanOut_deliveries]
  have hdisc : (fanOut (serializeState db) conns).2 =
      conns.filter (fun c => !c.sendOk) := fanOut_disconnected _ _
  have hroster : (broadcast_state db conns admins).2.1 =
      (evict (conns.filter (fun c => !c.sendOk)) conns admins).1 := by
    simp [broadcast_state, hdisc]
  have hadmins : (broadcast_state db conns admins).2.2 =
      (evict (conns.filter (fun c => !c.sendOk)) conns admins).2 := by
    simp [broadcast_state, hdisc]
  refine ⟨?_, ?_, ?_⟩
  · intro p hp
    rw [hdel] at hp
    obtain ⟨c, _, rfl⟩ := List.mem_map.mp hp
    rfl
  · intro c hc hok
    rw [hdel]
    exact List.mem_map_of_mem _ (List.mem_filter.mpr ⟨hc, hok⟩)
  · intro c hc hfail
    have hcd : c ∈ conns.filter (fun x => !x.sendOk) :=
      List.mem_filter.mpr ⟨hc, by simp [hfail]⟩
    refine ⟨?_, ?_, ?_⟩
    · intro p hp
      rw [hdel] at hp
      obtain ⟨x, hx, rfl⟩ := List.mem_map.mp hp
      have hxc : x ∈ conns := List.mem_of_mem_filter hx
      have hxok : x.sendOk = true := by
        have := List.of_mem_filter hx
        simpa using this
      intro heq
      have hxec : x = c := List.inj_on_of_nodup_map hnd hxc hc heq
      rw [hxec, hfail] at hxok
      exact Bool.false_ne_true hxok
    · intro x hx
      rw [hroster] at hx
      exact evict_removes _ _ _ c hcd x hx
    · intro hadm
      rw [hadmins]
      refine evict_removes_admin _ _ _ hnd
        (fun x hx => List.mem_of_mem_filter hx) ?_ c hcd hadm
      exact ((List.filter_sublist conns).map Conn.ws).nodup hnd

/-- The connections of the C8 witness: `a2` is a privileged connection
whose send fails mid-broadcast; `c1` and `c3` stay healthy. -/
def connsW : List Conn :=
  [⟨"c1", clientC1, true⟩, ⟨"a2", ⟨"ua", true, "Adm", "R"⟩, false⟩,
   ⟨"c3", ⟨"u3", false, "C3", "R"⟩, true⟩]

/-- Witness for C8: with `a2` failing, both healthy connections still
receive the one serialized payload and `a2` is evicted from the roster
and from the admin set. -/
theorem c8_broadcast_fault_isolation_witness :
    ((connsW.map Conn.ws).Nodup) ∧
    (("c1", serializeState queueState.db) ∈
      (broadcast_state queueState.db connsW ["a2"]).1) ∧
    (("c3", serializeState queueState.db) ∈
      (broadcast_state queueState.db connsW ["a2"]).1) ∧
    (∀ x ∈ (broadcast_state queueState.db connsW ["a2"]).2.1, x.ws ≠ "a2") ∧
    ("a2" ∉ (broadcast_state queueState.db connsW ["a2"]).2.2) :=
  have h := c8_broadcast_fault_isolation queueState.db connsW ["a2"] (by decide)
  ⟨by decide,
   h.2.1 ⟨"c1", clientC1, true⟩ (by decide) rfl,
   h.2.1 ⟨"c3", ⟨"u3", false, "C3", "R"⟩, true⟩ (by decide) rfl,
   (h.2.2 ⟨"a2", ⟨"ua", true, "Adm", "R"⟩, false⟩ (by decide) rfl).2.1,
   (h.2.2 ⟨"a2", ⟨"ua", true, "Adm", "R"⟩, false⟩ (by decide) rfl).2.2 rfl⟩

/-- The artist table of the C9 scenario: it contains "Beatles" with an
image URL (rows with a non-`http` image would be skipped on load). -/
def beatlesRows : List (String × String) :=
  [("Beatles", "http://img.example/beatles")]

/-- C9.  `lookup_artist_images` (over caches preloaded by
`load_artist_database`) normalizes each query name with
`clean_artist_name` — stripping featuring/connector suffixes,
parenthetical qualifiers and a leading "The ", and lowercasing — then
tries the caches exactly/fuzzily before falling back to the first letter
uppercased.  In particular `["The Beatles"]` against a table containing
"Beatles" resolves, via the stripped and case-folded key `"beatles"`, to
that entry's image rather than the fallback initial `"T"`; and a name
matching nothing (here over an empty table) falls back to its first
letter uppercased. -/
theorem c9_beatles_normalized_lookup :
    (clean_artist_name "The Beatles" = "beatles") ∧
    (lookupAssoc "The Beatles"
        (lookup_artist_images (load_artist_database beatlesRows) ["The Beatles"]).1 =
      some "http://img.example/beatles") ∧
    ("http://img.example/beatles" ≠ "T") ∧
    (lookupAssoc "zebra crew"
        (lookup_artist_images (load_artist_database []) ["zebra crew"]).1 =
      some "Z") := by
  refine ⟨by decide, by decide, by decide, by decide⟩

end RhythmCrew
